import Mathlib

set_option maxRecDepth 8192

/-!
Verification development for the notion2hugo block-tree pipeline.

The Python sources (`exporter.py`, `provider.py`, `formatter.py`) are shallowly
embedded below: pure functions become Lean functions, Python strings become
`String`/`List Char`, fallible code returns `Except String`, and Python's
truthiness and early-return idioms are made explicit.  Modelling notes:

* `str.lower()` is modelled per character by `Char.toLower` (ASCII case
  mapping); the characters the claims exercise are ASCII.
* `str.strip()` is modelled by `pyStrip`, dropping whitespace characters from
  both ends.
* `os.path.exists` is an effect; renderers that consult it take an explicit
  oracle `fs : String → Bool`.
-/

namespace Notion2Hugo

/-- The `ContentWithAnnotation` dataclass: one styled run of text
(``plain_text`` plus style flags, link, and marker flags). -/
structure ContentWithAnnotation where
  plain_text : String
  bold : Bool := false
  italic : Bool := false
  strikethrough : Bool := false
  underline : Bool := false
  code : Bool := false
  color : Option String := none
  href : Option String := none
  is_equation : Bool := false
  highlight : Bool := false
  is_caption : Bool := false
  is_feature_image : Bool := false
deriving Repr, DecidableEq

/-- Body of the `for` loop of `MarkdownStyler._style_content_with_annot`:
the chain of `if` statements rewrapping `t`.  (`if text.color: pass` is a
no-op in the source and contributes nothing.) -/
def styleOne (text : ContentWithAnnotation) : String :=
  let t0 := text.plain_text
  let t1 := if text.bold then "**" ++ t0 ++ "**" else t0
  let t2 := if text.italic then "_" ++ t1 ++ "_" else t1
  let t3 := if text.strikethrough then "~~" ++ t2 ++ "~~" else t2
  let t4 := if text.underline then "<ins>" ++ t3 ++ "</ins>" else t3
  let t5 := if text.code then "`" ++ t4 ++ "`" else t4
  let t6 := match text.href with
    | some h => if h = "" then t5 else "[" ++ t5 ++ "](" ++ h ++ ")"
    | none => t5
  let t7 := if text.is_equation then "$ " ++ t6 ++ " $" else t6
  let t8 := if text.highlight then "<mark>" ++ t7 ++ "</mark>" else t7
  t8

/-- The loop of `_style_content_with_annot` with its early
`return ""` made explicit: `none` signals that some run had empty
`plain_text`, aborting the whole rendering. -/
def styleRun : List ContentWithAnnotation → Option String
  | [] => some ""
  | text :: rest =>
    if text.plain_text = "" then none
    else match styleRun rest with
      | some s => some (styleOne text ++ s)
      | none => none

/-- `MarkdownStyler._style_content_with_annot`. -/
def style_content_with_annot (texts : List ContentWithAnnotation) : String :=
  (styleRun texts).getD ""

/-! ### Spec-side styling definition (for C1)

The spec words: "styling composition order is fixed and must nest as
bold → italic → strikethrough → underline(ins) → code → href(link) →
equation($) → highlight(mark)".  Each wrapper below is one step of that
chain, applied in the stated order starting from the plain text. -/

def wrapBold (a : ContentWithAnnotation) (s : String) : String :=
  if a.bold then "**" ++ s ++ "**" else s

def wrapItalic (a : ContentWithAnnotation) (s : String) : String :=
  if a.italic then "_" ++ s ++ "_" else s

def wrapStrikethrough (a : ContentWithAnnotation) (s : String) : String :=
  if a.strikethrough then "~~" ++ s ++ "~~" else s

def wrapUnderline (a : ContentWithAnnotation) (s : String) : String :=
  if a.underline then "<ins>" ++ s ++ "</ins>" else s

def wrapCode (a : ContentWithAnnotation) (s : String) : String :=
  if a.code then "`" ++ s ++ "`" else s

def wrapHref (a : ContentWithAnnotation) (s : String) : String :=
  match a.href with
  | some h => if h = "" then s else "[" ++ s ++ "](" ++ h ++ ")"
  | none => s

def wrapEquation (a : ContentWithAnnotation) (s : String) : String :=
  if a.is_equation then "$ " ++ s ++ " $" else s

def wrapHighlight (a : ContentWithAnnotation) (s : String) : String :=
  if a.highlight then "<mark>" ++ s ++ "</mark>" else s

/-- Spec-side rendering of a single annotation: the eight wrappers nested in
the fixed order bold (innermost) through highlight (outermost). -/
def styleOneSpecOrdered (a : ContentWithAnnotation) : String :=
  wrapHighlight a (wrapEquation a (wrapHref a (wrapCode a
    (wrapUnderline a (wrapStrikethrough a (wrapItalic a (wrapBold a a.plain_text)))))))

/-! ### `sanitize_path` (exporter.py and provider.py, identical bodies) -/

/-- One character of the regex class `[a-zA-Z0-9-_\.]`; `sanitize_path`
deletes every character outside it. -/
def allowedChar (c : Char) : Bool :=
  (decide ('a' ≤ c) && decide (c ≤ 'z')) ||
  (decide ('A' ≤ c) && decide (c ≤ 'Z')) ||
  (decide ('0' ≤ c) && decide (c ≤ '9')) ||
  c = '-' || c = '_' || c = '.'

/-- `sanitize_path` on the character list: `name.replace(" ", "_").lower()`
then delete every character outside `[a-zA-Z0-9-_\.]`. -/
def sanitizeChars (l : List Char) : List Char :=
  ((l.map (fun c => if c = ' ' then '_' else c)).map Char.toLower).filter allowedChar

/-- `sanitize_path` (exporter.py line 18 and provider.py line 282). -/
def sanitize_path (name : String) : String :=
  String.mk (sanitizeChars name.data)

/-- Spec-side formulation of the sanitization rule: "replace spaces with `_`,
lowercase, strip every character outside `[a-zA-Z0-9-_.]`", the class stated
via the character classifiers. -/
def sanitize_path_spec (name : String) : String :=
  String.mk (((name.data.map (fun c => if c = ' ' then '_' else c)).map Char.toLower).filter
    (fun c => c.isAlphanum || c = '-' || c = '_' || c = '.'))

/-! ### `parse_caption` (exporter.py) -/

/-- Model of Python `str.strip()`: drop whitespace from both ends. -/
def pyStrip (s : String) : String :=
  String.mk (((s.data.dropWhile Char.isWhitespace).reverse.dropWhile Char.isWhitespace).reverse)

/-- `input_string.split("\\", 1)`: the characters before the first backslash
and the characters after it.  Only used when a backslash is present. -/
def splitFirstBackslash : List Char → List Char × List Char
  | [] => ([], [])
  | c :: rest =>
    if c = '\\' then ([], rest)
    else
      let p := splitFirstBackslash rest
      (c :: p.1, p.2)

/-- `MarkdownStyler.parse_caption`: split on the first literal backslash and
strip both parts; with no backslash, return the input itself (unstripped)
and the empty string. -/
def parse_caption (input_string : String) : String × String :=
  if input_string.data.contains '\\' then
    let parts := splitFirstBackslash input_string.data
    (pyStrip (String.mk parts.1), pyStrip (String.mk parts.2))
  else (input_string, "")

/-- Spec-side: the text before the first backslash. -/
def beforeFirstBackslashSpec (s : String) : String :=
  String.mk (s.data.takeWhile (fun c => c ≠ '\\'))

/-- Spec-side: the text after the first backslash. -/
def afterFirstBackslashSpec (s : String) : String :=
  String.mk ((s.data.dropWhile (fun c => c ≠ '\\')).drop 1)

/-! ### Python values and `NotionParser.parse_properties` (provider.py)

Raw metadata is a Python `Dict[str, Any]`; we embed the Python values the
parser inspects.  `float`'s payload is abstracted to `Int` (no claim computes
with float values; only truthiness and the `isinstance` dispatch matter). -/

inductive PyVal where
  | str : String → PyVal
  | int : Int → PyVal
  | float : Int → PyVal
  | bool : Bool → PyVal
  | list : List PyVal → PyVal
  | dict : List (String × PyVal) → PyVal
  | none : PyVal

/-- Python truthiness (`if v:`). -/
def truthy : PyVal → Bool
  | .str s => s != ""
  | .int n => n != 0
  | .float n => n != 0
  | .bool b => b
  | .list l => !l.isEmpty
  | .dict d => !d.isEmpty
  | .none => false

def truthyOpt : Option PyVal → Bool
  | some v => truthy v
  | Option.none => false

/-- `d.get(k)` on a Python dict (insertion-ordered association list). -/
def pyGet (d : List (String × PyVal)) (k : String) : Option PyVal :=
  (d.find? (fun p => p.1 == k)).map (fun p => p.2)

/-- `d[k] = v` on a Python dict: overwrite in place, else append. -/
def dictSet (d : List (String × PyVal)) (k : String) (v : PyVal) : List (String × PyVal) :=
  if d.any (fun p => p.1 == k) then
    d.map (fun p => if p.1 == k then (k, v) else p)
  else d ++ [(k, v)]

/-- Substring test: Python `a in b` on strings. -/
def charsInfixOf (a : List Char) : List Char → Bool
  | [] => a.isEmpty
  | c :: rest => a.isPrefixOf (c :: rest) || charsInfixOf a rest

def pyInStr (a b : String) : Bool := charsInfixOf a.data b.data

mutual

/-- Python `repr` of a value (string quoting approximated with `'`). -/
def pyRepr : PyVal → String
  | .str s => "\x27" ++ s ++ "\x27"
  | .int n => toString n
  | .float n => toString n
  | .bool b => if b then "True" else "False"
  | .none => "None"
  | .list l => "[" ++ pyReprList l ++ "]"
  | .dict d => "\x7b" ++ pyReprDict d ++ "\x7d"

def pyReprList : List PyVal → String
  | [] => ""
  | [x] => pyRepr x
  | x :: y :: rest => pyRepr x ++ ", " ++ pyReprList (y :: rest)

def pyReprDict : List (String × PyVal) → String
  | [] => ""
  | [(k, v)] => "\x27" ++ k ++ "\x27: " ++ pyRepr v
  | (k, v) :: q :: rest => "\x27" ++ k ++ "\x27: " ++ pyRepr v ++ ", " ++ pyReprDict (q :: rest)

end

/-- Python `str(v)` as used in f-strings. -/
def pyStr : PyVal → String
  | .str s => s
  | v => pyRepr v

/-- `isinstance(c, (str, int, bool))`. -/
def isScalarLike : PyVal → Bool
  | .str _ => true
  | .int _ => true
  | .bool _ => true
  | _ => false

/-- The title comprehension `["'" + c["plain_text"] + "'" for c in v["title"]]`,
with Python's `KeyError`/`TypeError` made explicit. -/
def titleValues : List PyVal → Except String (List PyVal)
  | [] => Except.ok []
  | PyVal.dict cd :: rest =>
    match pyGet cd "plain_text" with
    | some (PyVal.str pt) =>
      match titleValues rest with
      | Except.ok vs => Except.ok (PyVal.str ("\x27" ++ pt ++ "\x27") :: vs)
      | Except.error e => Except.error e
    | some _ => Except.error "TypeError: can only concatenate str"
    | Option.none => Except.error "KeyError: plain_text"
  | _ :: _ => Except.error "TypeError: not subscriptable"

/-- The multi-select comprehension `[t.get("name") for t in c]`. -/
def multiNames : List PyVal → Except String (List (Option PyVal))
  | [] => Except.ok []
  | PyVal.dict td :: rest =>
    match multiNames rest with
    | Except.ok ns => Except.ok (pyGet td "name" :: ns)
    | Except.error e => Except.error e
  | _ :: _ => Except.error "AttributeError: get"

/-- One iteration of the `for k, v in metadata.items()` loop of
`parse_properties`.  The state is the properties dict built so far paired
with the current binding of the local variable `value`: Python's `value` is
assigned only inside the dict-valued branch, so a dict matching none of the
four shapes reuses the binding left by an earlier iteration — or hits
`UnboundLocalError` when there is none. -/
def parseEntry (st : List (String × PyVal) × Option PyVal) (kv : String × PyVal) :
    Except String (List (String × PyVal) × Option PyVal) :=
  let prop := st.1
  let lastVal := st.2
  let k := kv.1
  match kv.2 with
  | PyVal.dict vd =>
    match pyGet vd "type" with
    | Option.none => Except.error "KeyError: type"
    | some (PyVal.str t) =>
      -- `if v["type"] in ("relation")`: `("relation")` is the plain string,
      -- so this is a substring test, not tuple membership.
      if pyInStr t "relation" then Except.ok (prop, lastVal)
      else if t = "title" then
        match pyGet vd "title" with
        | some (PyVal.list cs) =>
          match titleValues cs with
          | Except.error e => Except.error e
          | Except.ok values =>
            let tv := match values with
              | [x] => x
              | _ => PyVal.list values
            Except.ok (dictSet prop "Title" tv, lastVal)
        | some _ => Except.error "TypeError: title not a list"
        | Option.none => Except.error "KeyError: title"
      else
        let c := (pyGet vd t).getD (PyVal.dict [])
        if !truthy c || isScalarLike c then Except.ok (dictSet prop k c, lastVal)
        else match c with
        | PyVal.list items =>
          match multiNames items with
          | Except.error e => Except.error e
          | Except.ok names =>
            Except.ok (dictSet prop k (PyVal.list (names.filterMap id)), lastVal)
        | PyVal.dict cd =>
          let nameO := pyGet cd "name"
          if truthyOpt nameO then
            let value := nameO.getD PyVal.none
            Except.ok (dictSet prop k value, some value)
          else if truthyOpt (pyGet cd "type") then
            match pyGet cd "type" with
            | some (PyVal.str tn) =>
              match pyGet cd tn with
              | some value => Except.ok (dictSet prop k value, some value)
              | Option.none => Except.error "KeyError: formula value"
            | _ => Except.error "KeyError: non-string key"
          else if truthyOpt (pyGet cd "prefix") && truthyOpt (pyGet cd "number") then
            let value := PyVal.str
              (pyStr ((pyGet cd "prefix").getD PyVal.none) ++ "_" ++
               pyStr ((pyGet cd "number").getD PyVal.none))
            Except.ok (dictSet prop k value, some value)
          else if truthyOpt (pyGet cd "start") then
            let value := (pyGet cd "start").getD PyVal.none
            Except.ok (dictSet prop k value, some value)
          else
            -- `prop[k] = value` with `value` unassigned in this iteration.
            match lastVal with
            | some value => Except.ok (dictSet prop k value, some value)
            | Option.none => Except.error "UnboundLocalError: value"
        | _ => Except.error ("NotImplementedError: " ++ k ++ " type not handled")
    | some _ => Except.error "TypeError: type tag not a string"
  | _ => Except.error "TypeError: not subscriptable"

/-- The custom `Summary` post-processing step of `parse_properties`. -/
def summaryStep (metadata : List (String × PyVal)) (prop : List (String × PyVal)) :
    Except String (List (String × PyVal)) :=
  match pyGet metadata "Summary" with
  | Option.none => Except.ok prop
  | some (PyVal.dict sd) =>
    match (pyGet sd "rich_text").getD (PyVal.list []) with
    | PyVal.list (first :: _) =>
      match first with
      | PyVal.dict fd =>
        match (pyGet fd "text").getD (PyVal.dict []) with
        | PyVal.dict td =>
          let content := (pyGet td "content").getD PyVal.none
          if truthy content then
            Except.ok (dictSet prop "Summary" (PyVal.str ("\x27" ++ pyStr content ++ "\x27")))
          else Except.ok prop
        | _ => Except.error "AttributeError: get"
      | _ => Except.error "AttributeError: get"
    | _ => Except.ok prop
  | some _ => Except.error "AttributeError: get"

/-- `NotionParser.parse_properties`: the per-entry loop, the `Summary`
override, then the unconditional `prop["lesedauer"] = "ReadingTime"`. -/
def parse_properties (metadata : List (String × PyVal)) :
    Except String (List (String × PyVal)) :=
  match metadata.foldlM parseEntry ([], Option.none) with
  | Except.error e => Except.error e
  | Except.ok st =>
    match summaryStep metadata st.1 with
    | Except.error e => Except.error e
    | Except.ok prop => Except.ok (dictSet prop "lesedauer" (PyVal.str "ReadingTime"))

/-! ### The node model (`Blob`, `BlobType`) and the markdown renderer

`base.py` (defining `Blob` and `BlobType`) is not among the provided source
files.  Modelled from the spec: the variant set is the spec's closed supported
set `{paragraph, heading_1..3, divider, equation, code, bulleted_list_item,
numbered_list_item, to_do, quote, table, table_row, image, video, column_list,
column, callout}`, extended with source-API block tags that have no renderer
method (`toggle`, `child_page`, `file`, `pdf`, `bookmark`, `breadcrumb`),
which the spec's unsupported-variant error concerns. -/

inductive BlobType where
  | paragraph | heading_1 | heading_2 | heading_3 | divider | equation | code
  | bulleted_list_item | numbered_list_item | to_do | quote | table | table_row
  | image | video | column_list | column | callout
  | toggle | child_page | file | pdf | bookmark | breadcrumb
deriving DecidableEq, Repr

/-- `blob.type.value`: the string value of the enum tag. -/
def typeName : BlobType → String
  | .paragraph => "paragraph"
  | .heading_1 => "heading_1"
  | .heading_2 => "heading_2"
  | .heading_3 => "heading_3"
  | .divider => "divider"
  | .equation => "equation"
  | .code => "code"
  | .bulleted_list_item => "bulleted_list_item"
  | .numbered_list_item => "numbered_list_item"
  | .to_do => "to_do"
  | .quote => "quote"
  | .table => "table"
  | .table_row => "table_row"
  | .image => "image"
  | .video => "video"
  | .column_list => "column_list"
  | .column => "column"
  | .callout => "callout"
  | .toggle => "toggle"
  | .child_page => "child_page"
  | .file => "file"
  | .pdf => "pdf"
  | .bookmark => "bookmark"
  | .breadcrumb => "breadcrumb"

/-- `hasattr(MarkdownStyler, blob.type.value)`: exactly the eighteen variants
with a renderer method in `MarkdownStyler`. -/
def hasRenderer : BlobType → Bool
  | .paragraph | .heading_1 | .heading_2 | .heading_3 | .divider | .equation
  | .code | .bulleted_list_item | .numbered_list_item | .to_do | .quote
  | .table | .table_row | .image | .video | .column_list | .column
  | .callout => true
  | _ => false

/-- The `Blob` node.  Python's `children`/`table_cells` may be `None` or a
list; `if blob.children:` treats `None` and `[]` identically, so both are
embedded as `[]`. -/
inductive Blob where
  | mk : (id : String) → (rich_text : List ContentWithAnnotation) → (type : BlobType) →
      (children : List Blob) → (file : Option String) → (language : Option String) →
      (table_width : Option Nat) → (table_cells : List (List ContentWithAnnotation)) →
      (is_checked : Option Bool) → (url : String) → Blob

def Blob.id : Blob → String
  | .mk i _ _ _ _ _ _ _ _ _ => i

def Blob.rich_text : Blob → List ContentWithAnnotation
  | .mk _ rt _ _ _ _ _ _ _ _ => rt

def Blob.type : Blob → BlobType
  | .mk _ _ ty _ _ _ _ _ _ _ => ty

def Blob.children : Blob → List Blob
  | .mk _ _ _ ch _ _ _ _ _ _ => ch

def Blob.file : Blob → Option String
  | .mk _ _ _ _ f _ _ _ _ _ => f

def Blob.language : Blob → Option String
  | .mk _ _ _ _ _ lang _ _ _ _ => lang

def Blob.table_width : Blob → Option Nat
  | .mk _ _ _ _ _ _ w _ _ _ => w

def Blob.table_cells : Blob → List (List ContentWithAnnotation)
  | .mk _ _ _ _ _ _ _ tc _ _ => tc

def Blob.is_checked : Blob → Option Bool
  | .mk _ _ _ _ _ _ _ _ chk _ => chk

def Blob.url : Blob → String
  | .mk _ _ _ _ _ _ _ _ _ u => u

def INC_INDENT : Nat := 4

/-- Python string repetition `s * n`. -/
def repeatStr (s : String) : Nat → String
  | 0 => ""
  | n + 1 => s ++ repeatStr s n

def spaces (n : Nat) : String := String.mk (List.replicate n ' ')

/-- `rows.insert(1, sep)`. -/
def insertAtOne (sep : String) : List String → List String
  | [] => [sep]
  | r :: rest => r :: sep :: rest

def emap (f : α → β) : Except String α → Except String β
  | Except.ok a => Except.ok (f a)
  | Except.error e => Except.error e

/-- Split a character list at every occurrence of `c0` (Python
`str.split(sep)` for a one-character separator). -/
def splitChar (c0 : Char) : List Char → List (List Char)
  | [] => [[]]
  | c :: rest =>
    match splitChar c0 rest with
    | [] => []
    | h :: t => if c = c0 then [] :: h :: t else (c :: h) :: t

/-- Python `path.split('/')`. -/
def pySplitSlash (s : String) : List String :=
  (splitChar '/' s.data).map String.mk

/-- `f"```{blob.language}"` renders Python `None` as `"None"`. -/
def pyOptStr : Option String → String
  | some s => s
  | Option.none => "None"

/-- Body of `MarkdownStyler.paragraph` after the children are rendered. -/
def paragraphJoin (rich_text : List ContentWithAnnotation) (ss : List String) : String :=
  String.intercalate "\n" (style_content_with_annot rich_text :: ss)

/-- Body of `MarkdownStyler._list_item` after the children are rendered. -/
def listItemJoin (rich_text : List ContentWithAnnotation) (indent : Nat) (list_ch : String)
    (ss : List String) : String :=
  String.intercalate "\n" ((spaces indent ++ list_ch ++ " " ++
    style_content_with_annot rich_text) :: ss)

def bootstrapOpen : String :=
  "\x7b\x7b< bootstrap-table table_class=\"table table-striped table-bordered table-nonfluid w-auto\" >\x7d\x7d"

def bootstrapClose : String := "\x7b\x7b< /bootstrap-table >\x7d\x7d"

def tableWrap (content : String) : String :=
  "\n" ++ bootstrapOpen ++ content ++ "\n" ++ bootstrapClose

/-- The `ValueError` message of `MarkdownStyler.process` (the trailing blob
repr is abbreviated). -/
def unsupportedMsg (ty : BlobType) : String :=
  "ValueError: MarkdownStyler does not support blob type = " ++ typeName ty ++ "."

mutual

/-- `MarkdownStyler.process` on a non-null blob: the `hasattr` dispatch and
the `"\n" +` prefix.  `fs` is the `os.path.exists` oracle. -/
def processB (fs : String → Bool) (blob : Blob) (indent : Nat) : Except String String :=
  match blob with
  | .mk _ rich_text ty children file language table_width table_cells is_checked url =>
    if hasRenderer ty then
      emap (fun s => "\n" ++ s) (
        match ty with
        | .divider => Except.ok "\n---\n"
        | .heading_1 =>
          emap (fun ss => "# " ++ paragraphJoin rich_text ss)
            (processList fs children (indent + INC_INDENT))
        | .heading_2 =>
          emap (fun ss => "## " ++ paragraphJoin rich_text ss)
            (processList fs children (indent + INC_INDENT))
        | .heading_3 =>
          emap (fun ss => "### " ++ paragraphJoin rich_text ss)
            (processList fs children (indent + INC_INDENT))
        | .equation =>
          emap (fun ss => "$$\n" ++ paragraphJoin rich_text ss ++ "\n$$")
            (processList fs children (indent + INC_INDENT))
        | .code =>
          emap (fun ss => "```" ++ pyOptStr language ++ "\n" ++ paragraphJoin rich_text ss ++ "\n```")
            (processList fs children (indent + INC_INDENT))
        | .paragraph =>
          emap (paragraphJoin rich_text) (processList fs children (indent + INC_INDENT))
        | .column_list =>
          emap (paragraphJoin rich_text) (processList fs children (indent + INC_INDENT))
        | .bulleted_list_item =>
          emap (listItemJoin rich_text indent "-") (processList fs children (indent + INC_INDENT))
        | .numbered_list_item =>
          emap (listItemJoin rich_text indent "1.") (processList fs children (indent + INC_INDENT))
        | .to_do =>
          emap (listItemJoin rich_text indent
              ("- [" ++ (if is_checked = some true then "X" else " ") ++ "]"))
            (processList fs children (indent + INC_INDENT))
        | .column =>
          emap (listItemJoin rich_text indent "-column") (processList fs children (indent + INC_INDENT))
        | .quote =>
          Except.ok (String.intercalate "\n>\n"
            (("> " ++ style_content_with_annot rich_text) ::
              children.map (fun c => "> " ++ style_content_with_annot c.rich_text)))
        | .table =>
          match table_width with
          | some w =>
            if w = 0 then Except.error "AssertionError: table_width expected for TABLE blob"
            else
              match children with
              | [] => Except.ok (tableWrap "")
              | c :: cs =>
                emap (fun rows =>
                    tableWrap (String.join (insertAtOne ("\n|" ++ repeatStr "---|" w) rows)))
                  (processList fs (c :: cs) indent)
          | Option.none => Except.error "AssertionError: table_width expected for TABLE blob"
        | .table_row =>
          match table_cells with
          | [] => Except.error "AssertionError: table_cells expected for TABLE_ROW blob"
          | cell :: cellRest =>
            Except.ok ("| " ++
              String.intercalate " | " ((cell :: cellRest).map style_content_with_annot)
              ++ " |")
        | .image =>
          match file with
          | some f =>
            if f ≠ "" && fs f then
              let caption := style_content_with_annot rich_text
              let path_parts := pySplitSlash f
              -- the source drops the FIRST TWO segments: ['images'] + path_parts[2:]
              let relative_path := String.intercalate "/" ("images" :: path_parts.drop 2)
              let cap_alt := parse_caption caption
              Except.ok ("\x7b\x7b< img class=\"blog-img-center\" width=\"800\" src=\"" ++
                relative_path ++ "\" caption=\"" ++ cap_alt.1 ++ "\" alt=\"" ++ cap_alt.2 ++
                "\" >\x7d\x7d")
            else Except.error "AssertionError: file expected for IMAGE blob"
          | Option.none => Except.error "AssertionError: file expected for IMAGE blob"
        | .video =>
          let title := style_content_with_annot rich_text
          if title = "" then
            Except.error "AssertionError: Missing Title for the youtube video, add caption"
          else if url.startsWith "https://youtu.be/" then
            Except.ok ("\x7b\x7b< youtube id=\"" ++ url.drop "https://youtu.be/".length ++
              "\" title=\"" ++ title ++ "\" width=60 >\x7d\x7d")
          else Except.error "AssertionError: url does not start with https://youtu.be/"
        | .callout =>
          Except.ok ("\x7b\x7b< callout emoji=\"\" text=\"" ++
            style_content_with_annot rich_text ++ "\" >\x7d\x7d")
        -- dead arm: the variants below fail `hasRenderer` and never reach here
        | _ => Except.error "unreachable")
    else Except.error (unsupportedMsg ty)

/-- Rendering of a list of children (Python list comprehensions over
`cls.process`), propagating the first raised error. -/
def processList (fs : String → Bool) : List Blob → Nat → Except String (List String)
  | [], _ => Except.ok []
  | b :: rest, ind =>
    match processB fs b ind with
    | Except.error e => Except.error e
    | Except.ok s =>
      match processList fs rest ind with
      | Except.error e => Except.error e
      | Except.ok ss => Except.ok (s :: ss)

end

/-- `MarkdownStyler.process`: empty string for a null blob, dispatch
otherwise. -/
def process (fs : String → Bool) (blob : Option Blob) (indent : Nat) : Except String String :=
  match blob with
  | Option.none => Except.ok ""
  | some b => processB fs b indent

/-! ### Spec-side definitions and concrete example inputs used by the claims -/

/-- Spec-side path rewriting as the spec words it: "first path segment is
replaced with a fixed images folder name, remaining segments kept". -/
def replaceFirstSegmentSpec (p : String) : String :=
  String.intercalate "/" ("images" :: (pySplitSlash p).drop 1)

/-- The pipe-delimited lines of a rendered string. -/
def pipeLines (s : String) : List (List Char) :=
  (splitChar '\n' s.data).filter (fun l => l.contains '|')

/-- An annotation with the given text and no styling. -/
def cwaPlain (s : String) : ContentWithAnnotation := { plain_text := s }

def fsNone : String → Bool := fun _ => false

def fsABC : String → Bool := fun p => p == "a/b/c.png"

def exRow1 : Blob :=
  Blob.mk "r1" [] BlobType.table_row [] Option.none Option.none Option.none
    [[cwaPlain "a"], [cwaPlain "b"], [cwaPlain "c"]] Option.none ""

def exRow2 : Blob :=
  Blob.mk "r2" [] BlobType.table_row [] Option.none Option.none Option.none
    [[cwaPlain "d"], [cwaPlain "e"], [cwaPlain "f"]] Option.none ""

/-- A table of 2 rows of 3 cells. -/
def exTable : Blob :=
  Blob.mk "t" [] BlobType.table [exRow1, exRow2] Option.none Option.none (some 3) []
    Option.none ""

/-- An image blob whose file path has three segments. -/
def exImageBlob : Blob :=
  Blob.mk "img1" [] BlobType.image [] (some "a/b/c.png") Option.none Option.none []
    Option.none ""

/-- A blob with a variant tag that has no renderer method. -/
def exToggle : Blob :=
  Blob.mk "tg" [] BlobType.toggle [] Option.none Option.none Option.none [] Option.none ""

/-- A metadata mapping whose second entry is a dict matching none of the four
shapes of the priority chain; the first entry is an ordinary select. -/
def exC6Metadata : List (String × PyVal) :=
  [("A", PyVal.dict [("type", PyVal.str "select"),
                     ("select", PyVal.dict [("name", PyVal.str "x")])]),
   ("B", PyVal.dict [("type", PyVal.str "zzz"),
                     ("zzz", PyVal.dict [("foo", PyVal.str "bar")])])]

/-! ## Theorems -/

theorem styleOne_eq_specOrdered (a : ContentWithAnnotation) :
    styleOne a = styleOneSpecOrdered a := rfl

theorem styleRun_eq_some (ts : List ContentWithAnnotation)
    (h : ∀ t ∈ ts, t.plain_text ≠ "") :
    styleRun ts = some ((ts.map styleOne).foldr (· ++ ·) "") := by
  induction ts with
  | nil => rfl
  | cons t rest ih =>
    have ht : ¬ t.plain_text = "" := h t (List.mem_cons_self t rest)
    have hrest : ∀ x ∈ rest, x.plain_text ≠ "" :=
      fun x hx => h x (List.mem_cons_of_mem _ hx)
    simp [styleRun, ht, ih hrest]

theorem styleRun_eq_none (ts : List ContentWithAnnotation) (t : ContentWithAnnotation)
    (ht : t ∈ ts) (he : t.plain_text = "") : styleRun ts = Option.none := by
  induction ts with
  | nil => cases ht
  | cons u rest ih =>
    rcases List.mem_cons.mp ht with h | h
    · subst h
      simp [styleRun, he]
    · by_cases hu : u.plain_text = ""
      · simp [styleRun, hu]
      · simp [styleRun, hu, ih h]

/-- C1: for annotation sequences with all plain texts non-empty, the styled
rendering applies the markup wrappers in the fixed order bold, italic,
strikethrough, underline, code, href, equation, highlight (bold innermost),
and the whole sequence renders to the concatenation of the per-annotation
renderings; in particular a bold italic "x" renders as `_**x**_`. -/
theorem c1_styling_order_and_concatenation :
    (∀ texts : List ContentWithAnnotation, (∀ t ∈ texts, t.plain_text ≠ "") →
      style_content_with_annot texts
        = (texts.map styleOneSpecOrdered).foldr (· ++ ·) "") ∧
    style_content_with_annot
      [{ plain_text := "x", bold := true, italic := true }] = "_**x**_" := by
  constructor
  · intro texts h
    have hmap : texts.map styleOneSpecOrdered = texts.map styleOne := by
      simp [styleOne_eq_specOrdered]
    rw [style_content_with_annot, styleRun_eq_some texts h, hmap]
    rfl
  · rfl

/-- Closed witness for C1's hypothesis. -/
theorem c1_styling_order_and_concatenation_witness :
    style_content_with_annot [cwaPlain "hi", { plain_text := "x", bold := true }]
      = ([cwaPlain "hi", { plain_text := "x", bold := true }].map styleOneSpecOrdered).foldr
          (· ++ ·) "" :=
  c1_styling_order_and_concatenation.1 _ (by decide)

/-- C7: a single empty plain text anywhere in the sequence makes the whole
styled rendering empty, regardless of flags and of the other annotations. -/
theorem c7_empty_plain_text_short_circuits (texts : List ContentWithAnnotation)
    (t : ContentWithAnnotation) (ht : t ∈ texts) (he : t.plain_text = "") :
    style_content_with_annot texts = "" := by
  rw [style_content_with_annot, styleRun_eq_none texts t ht he]
  rfl

/-- Closed witness for C7: a styled, linked run around an empty one. -/
theorem c7_empty_plain_text_short_circuits_witness :
    style_content_with_annot
      [{ plain_text := "loud", bold := true, highlight := true },
       { plain_text := "", bold := true, italic := true, href := some "https://x" },
       cwaPlain "tail"] = "" :=
  c7_empty_plain_text_short_circuits _
    { plain_text := "", bold := true, italic := true, href := some "https://x" }
    (by decide) rfl

theorem splitFirstBackslash_eq (l : List Char) :
    splitFirstBackslash l
      = (l.takeWhile (fun c => c ≠ '\\'), (l.dropWhile (fun c => c ≠ '\\')).drop 1) := by
  induction l with
  | nil => rfl
  | cons c rest ih =>
    by_cases hc : c = '\\'
    · subst hc
      simp [splitFirstBackslash, List.takeWhile, List.dropWhile]
    · simp [splitFirstBackslash, hc, List.takeWhile, List.dropWhile, ih]

/-- C4 (counterexample): on an input with no backslash the caption is the
whole input, but NOT trimmed of surrounding whitespace as the claim states:
`parse_caption " hello "` keeps the spaces. -/
theorem c4_counterexample_no_trim :
    parse_caption " hello " = (" hello ", "") ∧ parse_caption " hello " ≠ ("hello", "") := by
  constructor
  · rfl
  · decide

/-- C4 (amended): with a backslash, `parse_caption` returns the text before
the first backslash and the text after it, both stripped; with no backslash
it returns the input string itself — unstripped — and the empty string.
E.g. `"Caption text\Alt text"` yields `("Caption text", "Alt text")`. -/
theorem c4_parse_caption_amended (s : String) :
    (parse_caption s = if s.data.contains '\\' then
        (pyStrip (beforeFirstBackslashSpec s), pyStrip (afterFirstBackslashSpec s))
      else (s, "")) ∧
    parse_caption "Caption text\\Alt text" = ("Caption text", "Alt text") := by
  constructor
  · by_cases h : s.data.contains '\\'
    · simp only [parse_caption, h, if_true, beforeFirstBackslashSpec, afterFirstBackslashSpec,
        splitFirstBackslash_eq]
    · simp only [parse_caption, h]
      rw [if_neg (by simp [h]), if_neg (by simp [h])]
  · rfl

theorem char_le_iff_toNat (a b : Char) : a ≤ b ↔ a.toNat ≤ b.toNat := Iff.rfl

theorem char_eq_iff_toNat (a b : Char) : a = b ↔ a.toNat = b.toNat :=
  ⟨fun h => h ▸ rfl, fun h => Char.ext (UInt32.toNat.inj h)⟩

theorem char_toNat_ofNat_of_lt {n : Nat} (h : n < 55296) : (Char.ofNat n).toNat = n := by
  rw [Char.ofNat, dif_pos (Or.inl h : Nat.isValidChar n)]
  rfl

theorem toLower_eq_ite (c : Char) :
    c.toLower = if 65 ≤ c.toNat ∧ c.toNat ≤ 90 then Char.ofNat (c.toNat + 32) else c := rfl

theorem toLower_idem (c : Char) : c.toLower.toLower = c.toLower := by
  rw [toLower_eq_ite c]
  by_cases h : 65 ≤ c.toNat ∧ c.toNat ≤ 90
  · rw [if_pos h, toLower_eq_ite,
      if_neg (by rw [char_toNat_ofNat_of_lt (by omega)]; omega)]
  · rw [if_neg h, toLower_eq_ite, if_neg h]

theorem u32_le_iff_toNat (a b : UInt32) : a ≤ b ↔ a.toNat ≤ b.toNat := Iff.rfl

theorem allowedChar_iff (c : Char) :
    allowedChar c = true ↔
      (97 ≤ c.toNat ∧ c.toNat ≤ 122) ∨ (65 ≤ c.toNat ∧ c.toNat ≤ 90) ∨
      (48 ≤ c.toNat ∧ c.toNat ≤ 57) ∨ c.toNat = 45 ∨ c.toNat = 95 ∨ c.toNat = 46 := by
  simp only [allowedChar, Bool.or_eq_true, Bool.and_eq_true, decide_eq_true_eq,
    char_le_iff_toNat, char_eq_iff_toNat,
    show ('a').toNat = 97 from rfl, show ('z').toNat = 122 from rfl,
    show ('A').toNat = 65 from rfl, show ('Z').toNat = 90 from rfl,
    show ('0').toNat = 48 from rfl, show ('9').toNat = 57 from rfl,
    show ('-').toNat = 45 from rfl, show ('_').toNat = 95 from rfl,
    show ('.').toNat = 46 from rfl]
  tauto

theorem isAlphanumExtended_iff (c : Char) :
    (c.isAlphanum || c = '-' || c = '_' || c = '.') = true ↔
      (97 ≤ c.toNat ∧ c.toNat ≤ 122) ∨ (65 ≤ c.toNat ∧ c.toNat ≤ 90) ∨
      (48 ≤ c.toNat ∧ c.toNat ≤ 57) ∨ c.toNat = 45 ∨ c.toNat = 95 ∨ c.toNat = 46 := by
  simp only [Char.isAlphanum, Char.isAlpha, Char.isDigit, Char.isUpper, Char.isLower,
    Bool.or_eq_true, Bool.and_eq_true, decide_eq_true_eq, char_eq_iff_toNat, ge_iff_le,
    u32_le_iff_toNat,
    show ((65 : UInt32)).toNat = 65 from rfl, show ((90 : UInt32)).toNat = 90 from rfl,
    show ((97 : UInt32)).toNat = 97 from rfl, show ((122 : UInt32)).toNat = 122 from rfl,
    show ((48 : UInt32)).toNat = 48 from rfl, show ((57 : UInt32)).toNat = 57 from rfl,
    show ('-').toNat = 45 from rfl, show ('_').toNat = 95 from rfl,
    show ('.').toNat = 46 from rfl,
    show ∀ x : Char, x.val.toNat = x.toNat from fun _ => rfl]
  tauto

theorem allowedChar_eq_spec (c : Char) :
    allowedChar c = (c.isAlphanum || c = '-' || c = '_' || c = '.') := by
  have h1 := allowedChar_iff c
  have h2 := isAlphanumExtended_iff c
  cases hA : allowedChar c with
  | true => exact (h2.mpr (h1.mp hA)).symm
  | false =>
    cases hB : (c.isAlphanum || c = '-' || c = '_' || c = '.') with
    | true =>
      rw [← hA, h1.mpr (h2.mp hB)]
    | false => rfl

theorem map_id_of_forall_eq {α : Type} (f : α → α) :
    ∀ l : List α, (∀ x ∈ l, f x = x) → l.map f = l
  | [], _ => rfl
  | x :: xs, h => by
    rw [List.map_cons, h x (List.mem_cons_self x xs),
      map_id_of_forall_eq f xs (fun y hy => h y (List.mem_cons_of_mem _ hy))]

/-- C5 (counterexample): `sanitize_path "My Post! #1"` is `"my_post_1"` — the
second space also becomes an underscore — not `"my_post1"` as the claim's
example states. -/
theorem c5_counterexample_example_value :
    sanitize_path "My Post! #1" = "my_post_1" ∧ sanitize_path "My Post! #1" ≠ "my_post1" := by
  constructor
  · rfl
  · decide

/-- C5 (amended): `sanitize_path` replaces each space with an underscore,
lowercases the result, and removes every character outside `[a-zA-Z0-9-_.]`;
in particular `sanitize_path "My Post! #1" = "my_post_1"` (not `"my_post1"`:
both spaces become underscores and only `!` and `#` are removed). -/
theorem c5_sanitize_path_amended :
    (∀ s : String, sanitize_path s = sanitize_path_spec s) ∧
    sanitize_path "My Post! #1" = "my_post_1" := by
  constructor
  · intro s
    unfold sanitize_path sanitize_path_spec sanitizeChars
    exact congrArg String.mk (List.filter_congr (fun c _ => allowedChar_eq_spec c))
  · rfl

theorem mem_sanitizeChars {c : Char} {l : List Char} (hc : c ∈ sanitizeChars l) :
    allowedChar c = true ∧ c.toLower = c := by
  unfold sanitizeChars at hc
  have h1 := List.mem_filter.mp hc
  refine ⟨h1.2, ?_⟩
  rcases List.mem_map.mp h1.1 with ⟨c0, _, rfl⟩
  exact toLower_idem c0

theorem sanitizeChars_idem (l : List Char) : sanitizeChars (sanitizeChars l) = sanitizeChars l := by
  conv_lhs => rw [sanitizeChars]
  have hrepl : (sanitizeChars l).map (fun c => if c = ' ' then '_' else c) = sanitizeChars l := by
    apply map_id_of_forall_eq
    intro c hc
    have hall := (mem_sanitizeChars hc).1
    have hne : c ≠ ' ' := by
      intro e
      subst e
      exact absurd hall (by decide)
    simp [hne]
  rw [hrepl]
  have hlow : (sanitizeChars l).map Char.toLower = sanitizeChars l :=
    map_id_of_forall_eq _ _ (fun c hc => (mem_sanitizeChars hc).2)
  rw [hlow]
  exact List.filter_eq_self.mpr (fun c hc => (mem_sanitizeChars hc).1)

/-- C9: `sanitize_path` is idempotent — its output has no spaces, no
uppercase letters, and only characters in the allowed class, so a second
pass changes nothing. -/
theorem c9_sanitize_path_idempotent (s : String) :
    sanitize_path (sanitize_path s) = sanitize_path s := by
  unfold sanitize_path
  exact congrArg String.mk (sanitizeChars_idem s.data)

/-- C3 (counterexample): for the image file path `"a/b/c.png"` the emitted
src is `"images/c.png"` — the code drops the first TWO segments
(`['images'] + path_parts[2:]`) — while replacing only the first segment as
the claim states would give `"images/b/c.png"`. -/
theorem c3_counterexample_two_segments :
    process fsABC (some exImageBlob) 0
      = Except.ok
          "\n\x7b\x7b< img class=\"blog-img-center\" width=\"800\" src=\"images/c.png\" caption=\"\" alt=\"\" >\x7d\x7d" ∧
    replaceFirstSegmentSpec "a/b/c.png" = "images/b/c.png" ∧
    ("images/c.png" : String) ≠ "images/b/c.png" := by
  refine ⟨by rfl, by rfl, by decide⟩

/-- C3 (amended): for every image node with a non-empty file path that the
filesystem oracle reports as existing, the emitted src path is obtained by
replacing the file path's first TWO path segments with the single fixed
segment `images`, keeping all remaining segments unchanged. -/
theorem c3_image_src_amended (fs : String → Bool) (b : Blob) (p : String) (ind : Nat)
    (ht : b.type = BlobType.image) (hf : b.file = some p) (hp : p ≠ "")
    (hfs : fs p = true) :
    process fs (some b) ind
      = Except.ok ("\n" ++ ("\x7b\x7b< img class=\"blog-img-center\" width=\"800\" src=\"" ++
          String.intercalate "/" ("images" :: (pySplitSlash p).drop 2) ++ "\" caption=\"" ++
          (parse_caption (style_content_with_annot b.rich_text)).1 ++ "\" alt=\"" ++
          (parse_caption (style_content_with_annot b.rich_text)).2 ++
          "\" >\x7d\x7d")) := by
  rcases b with ⟨i, rt, ty, ch, f, lang, tw, tc, chk, u⟩
  simp only [Blob.type] at ht
  simp only [Blob.file] at hf
  simp only [Blob.rich_text]
  subst ht
  subst hf
  simp [process, processB, hasRenderer, emap, hp, hfs]

/-- Closed witness for C3's amended theorem. -/
theorem c3_image_src_amended_witness :
    process fsABC (some exImageBlob) 0
      = Except.ok ("\n" ++ ("\x7b\x7b< img class=\"blog-img-center\" width=\"800\" src=\"" ++
          String.intercalate "/" ("images" :: (pySplitSlash "a/b/c.png").drop 2) ++
          "\" caption=\"" ++
          (parse_caption (style_content_with_annot exImageBlob.rich_text)).1 ++
          "\" alt=\"" ++
          (parse_caption (style_content_with_annot exImageBlob.rich_text)).2 ++
          "\" >\x7d\x7d")) :=
  c3_image_src_amended fsABC exImageBlob "a/b/c.png" 0 rfl rfl (by decide) rfl

/-- C2: a table node with `table_width = w` and at least one child renders to
the wrapped concatenation of the rendered rows with exactly one separator
row of `w` cells of `---` inserted immediately after the first rendered row;
for the 2-rows-of-3-cells table the rendered markdown has exactly 3
pipe-delimited lines, each containing exactly 4 `|` characters. -/
theorem c2_table_separator_row (fs : String → Bool) (b : Blob) (w : Nat) (ind : Nat)
    (r : String) (rest : List String)
    (ht : b.type = BlobType.table) (hw : b.table_width = some w) (hwpos : w ≠ 0)
    (hrows : processList fs b.children ind = Except.ok (r :: rest)) :
    (process fs (some b) ind
      = Except.ok ("\n" ++
          tableWrap (String.join (r :: ("\n|" ++ repeatStr "---|" w) :: rest)))) ∧
    (∃ s, process fsNone (some exTable) 0 = Except.ok s ∧
      (pipeLines s).length = 3 ∧ ∀ l ∈ pipeLines s, l.count '|' = 4) := by
  constructor
  · rcases b with ⟨i, rt, ty, ch, f, lang, tw, tc, chk, u⟩
    simp only [Blob.type] at ht
    simp only [Blob.table_width] at hw
    simp only [Blob.children] at hrows
    subst ht
    subst hw
    cases ch with
    | nil => simp [processList] at hrows
    | cons c cs =>
      simp [process, processB, hasRenderer, hwpos, hrows, emap, insertAtOne]
  · refine ⟨"\n\n\x7b\x7b< bootstrap-table table_class=\"table table-striped table-bordered table-nonfluid w-auto\" >\x7d\x7d\n| a | b | c |\n|---|---|---|\n| d | e | f |\n\x7b\x7b< /bootstrap-table >\x7d\x7d", by rfl, by decide, by decide⟩

/-- Closed witness for C2's hypotheses, at the 2-rows-of-3-cells table. -/
theorem c2_table_separator_row_witness :
    process fsNone (some exTable) 0
      = Except.ok ("\n" ++
          tableWrap (String.join ("\n| a | b | c |" :: ("\n|" ++ repeatStr "---|" 3) ::
            ["\n| d | e | f |"]))) :=
  (c2_table_separator_row fsNone exTable 3 0 "\n| a | b | c |" ["\n| d | e | f |"]
    rfl rfl (by decide) rfl).1

/-- C8: the render dispatch returns the empty string for a null node, and for
every non-null node whose variant tag has no renderer it raises the
unsupported-variant error instead of returning any string. -/
theorem c8_unsupported_variant_dispatch (fs : String → Bool) :
    (∀ ind : Nat, process fs Option.none ind = Except.ok "") ∧
    (∀ (b : Blob) (ind : Nat), hasRenderer b.type = false →
      process fs (some b) ind = Except.error (unsupportedMsg b.type)) := by
  constructor
  · intro ind
    rfl
  · intro b ind h
    cases b with
    | mk i rt ty ch f lang tw tc chk u =>
      simp only [Blob.type] at h
      cases ty <;> first
        | exact absurd h (by decide)
        | rfl

/-- Closed witness for C8 at a `toggle` node. -/
theorem c8_unsupported_variant_dispatch_witness :
    process fsNone (some exToggle) 0 = Except.error (unsupportedMsg BlobType.toggle) ∧
    process fsNone Option.none 0 = Except.ok "" :=
  ⟨(c8_unsupported_variant_dispatch fsNone).2 exToggle 0 rfl,
   (c8_unsupported_variant_dispatch fsNone).1 0⟩

/-- C6: at `exC6Metadata` the second entry's dict matches none of the four
shapes of the priority chain, yet `parse_properties` succeeds and silently
binds `"B"` to the stale `value` `"x"` computed for the previous entry —
it never raises the unhandled-property-type (`NotImplementedError`) error
the claim (and the parser's own error message) intends. -/
theorem c6_unhandled_dict_reuses_stale_value :
    parse_properties exC6Metadata
      = Except.ok [("A", PyVal.str "x"), ("B", PyVal.str "x"),
                   ("lesedauer", PyVal.str "ReadingTime")] ∧
    ∀ e : String, parse_properties exC6Metadata ≠ Except.error e := by
  have h1 : parse_properties exC6Metadata
      = Except.ok [("A", PyVal.str "x"), ("B", PyVal.str "x"),
                   ("lesedauer", PyVal.str "ReadingTime")] := by rfl
  refine ⟨h1, ?_⟩
  intro e h
  rw [h1] at h
  exact Except.noConfusion h

theorem find_in_overwrite (k : String) (v : PyVal) :
    ∀ d : List (String × PyVal), d.any (fun p => p.1 == k) = true →
      (d.map (fun p => if p.1 == k then (k, v) else p)).find? (fun p => p.1 == k)
        = some (k, v)
  | [], h => by simp at h
  | p :: rest, h => by
    by_cases hp : p.1 == k
    · simp [List.find?, hp]
    · have hp' : (p.1 == k) = false := by
        cases hq : (p.1 == k)
        · rfl
        · exact absurd hq hp
      have hrest : rest.any (fun q => q.1 == k) = true := by
        simpa [List.any_cons, hp'] using h
      rw [List.map_cons, if_neg hp, List.find?_cons]
      simp only [hp']
      exact find_in_overwrite k v rest hrest

theorem find_append_of_none (k : String) (v : PyVal) :
    ∀ d : List (String × PyVal), d.any (fun p => p.1 == k) = false →
      (d ++ [(k, v)]).find? (fun p => p.1 == k) = some (k, v)
  | [], _ => by simp [List.find?]
  | p :: rest, h => by
    have hp : (p.1 == k) = false := by
      cases hq : (p.1 == k)
      · rfl
      · rw [List.any_cons, hq, Bool.true_or] at h
        exact absurd h (by simp)
    have hrest : rest.any (fun q => q.1 == k) = false := by
      rw [List.any_cons, hp, Bool.false_or] at h
      exact h
    simp only [List.cons_append, List.find?, hp]
    exact find_append_of_none k v rest hrest

theorem pyGet_dictSet_self (d : List (String × PyVal)) (k : String) (v : PyVal) :
    pyGet (dictSet d k v) k = some v := by
  unfold pyGet dictSet
  by_cases h : d.any (fun p => p.1 == k)
  · rw [if_pos h, find_in_overwrite k v d h]
    rfl
  · have h' : d.any (fun p => p.1 == k) = false := by
      cases hq : d.any (fun p => p.1 == k)
      · rfl
      · exact absurd hq h
    rw [if_neg h, find_append_of_none k v d h']
    rfl

/-- C10: whenever `parse_properties` succeeds, the returned properties bind
the lowercase key `"lesedauer"` to the literal `"ReadingTime"` (the
capitalized `"Lesedauer"` expected by the formatter's fixed key order is
never what this final assignment produces). -/
theorem c10_lesedauer_always_bound (metadata prop : List (String × PyVal))
    (h : parse_properties metadata = Except.ok prop) :
    pyGet prop "lesedauer" = some (PyVal.str "ReadingTime") := by
  unfold parse_properties at h
  cases hf : metadata.foldlM parseEntry ([], Option.none) with
  | error e =>
    rw [hf] at h
    exact Except.noConfusion h
  | ok st =>
    rw [hf] at h
    dsimp only at h
    cases hs : summaryStep metadata st.1 with
    | error e =>
      rw [hs] at h
      exact Except.noConfusion h
    | ok p2 =>
      rw [hs] at h
      dsimp only at h
      injection h with h2
      rw [← h2]
      exact pyGet_dictSet_self p2 "lesedauer" (PyVal.str "ReadingTime")

/-- Closed witness for C10 at the empty metadata mapping. -/
theorem c10_lesedauer_always_bound_witness :
    pyGet [("lesedauer", PyVal.str "ReadingTime")] "lesedauer"
      = some (PyVal.str "ReadingTime") :=
  c10_lesedauer_always_bound [] [("lesedauer", PyVal.str "ReadingTime")] (by rfl)

end Notion2Hugo
